import Mathlib

/-!
# Assignment submission portal — shallow embedding

A Lean model of `src/app.py`, a small Flask web portal for assignment
submission (student/faculty roles, PDF upload with validation, review
workflow).  The SQLite tables become lists of records in a `State`; each
request handler becomes a state-passing function returning an optional
error (the `flash(..., "error")` message) together with the resulting
state.  Nondeterministic inputs of the handlers (current time `now_text()`,
the random token `uuid4().hex`) are passed as explicit parameters.

String manipulation (`.strip()`, `.lower()`, `.rsplit()`, prefix tests,
text comparison) is modelled on `String.data` character lists so that
every definition evaluates by kernel reduction.

External collaborators (per the design: HTTP layer, sessions, the werkzeug
hashing primitives) are abstracted; everything else is translated
line-by-line from `app.py`.
-/

/-- The error taxonomy of the design document.  Each carries the exact
user-facing flash message from `app.py`. -/
inductive Err where
  | validationErr (msg : String)
  | conflictErr (msg : String)
  | notFoundErr (msg : String)
  | authErr (msg : String)
  | authzErr (msg : String)
deriving DecidableEq, Repr

/-- A row of the `users` table. -/
structure User where
  id : Nat
  name : String
  email : String
  password : String
  role : String
deriving DecidableEq, Repr

/-- A row of the `assignments` table. -/
structure Assignment where
  id : Nat
  title : String
  description : String
  deadline : String
deriving DecidableEq, Repr

/-- A row of the `submissions` table. -/
structure Submission where
  id : Nat
  student_id : Nat
  assignment_id : Nat
  file_name : String
  submitted_at : String
  status : String
  faculty_comment : String
  reviewed_at : String
  reviewed_by : Option Nat
deriving DecidableEq, Repr

/-- An uploaded multipart file: its client-supplied name and its byte
content (bytes as `Nat`s below 256). -/
structure FilePart where
  filename : String
  content : List Nat
deriving DecidableEq, Repr

/-- The persistent state: the four SQLite tables plus the upload
directory (`files` is the set of file names present on disk).  The
`next*Id` counters model SQLite `AUTOINCREMENT` (ids are never reused). -/
structure State where
  users : List User
  assignments : List Assignment
  submissions : List Submission
  login_logs : List (Nat × String)
  files : List String
  nextUserId : Nat
  nextAssignmentId : Nat
  nextSubmissionId : Nat
deriving DecidableEq, Repr

/-! ## Character-list string primitives -/

/-- ASCII lower-casing of one character (`str.lower` on the inputs the
portal handles). -/
def lowerChar (c : Char) : Char :=
  if 65 ≤ c.toNat ∧ c.toNat ≤ 90 then Char.ofNat (c.toNat + 32) else c

/-- `str.lower()`. -/
def toLowerStr (s : String) : String :=
  ⟨s.data.map lowerChar⟩

/-- The whitespace characters removed by Python's `str.strip()`. -/
def isStripChar (c : Char) : Bool :=
  c = ' ' || c = '\t' || c = '\n' || c = '\x0d' || c = '\x0b' || c = '\x0c'

/-- `str.strip()`: remove leading and trailing whitespace. -/
def pyStrip (s : String) : String :=
  ⟨((s.data.dropWhile isStripChar).reverse.dropWhile isStripChar).reverse⟩

/-- Split a character list at every occurrence of `sep` (what
`rsplit`/`split` need here: the final component is the text after the
last separator, and a separator occurs iff there are ≥ 2 components). -/
def splitOnChar (sep : Char) : List Char → List (List Char)
  | [] => [[]]
  | c :: rest =>
    let r := splitOnChar sep rest
    if c = sep then [] :: r
    else
      match r with
      | [] => [[c]]
      | h :: t => (c :: h) :: t

/-- Numeric value of an all-digit character list. -/
def natOfDigits (cs : List Char) : Nat :=
  cs.foldl (fun n c => n * 10 + (c.toNat - 48)) 0

/-- Interpret a form-supplied id string as the integer SQLite compares an
`INTEGER` column against: a (non-empty, all-digit) decimal literal
converts, anything else matches no row. -/
def strToNat? (s : String) : Option Nat :=
  if s.data ≠ [] ∧ s.data.all Char.isDigit then some (natOfDigits s.data) else none

/-- `str.startswith(pre)`. -/
def startsWithStr (s pre : String) : Bool :=
  pre.data.isPrefixOf s.data

/-- Binary (code-point) text ordering — how SQLite compares and orders
`TEXT` values (`ORDER BY ... ASC`). -/
def strLeChars : List Char → List Char → Bool
  | [], _ => true
  | _ :: _, [] => false
  | a :: l1, b :: l2 =>
    if a.toNat < b.toNat then true
    else if b.toNat < a.toNat then false
    else strLeChars l1 l2

/-- `ORDER BY t ASC` comparison on strings. -/
def strLe (s t : String) : Bool :=
  strLeChars s.data t.data

/-! ## Validation helpers from app.py -/

/-- `allowed_file` from app.py: `"." in filename and
filename.rsplit(".", 1)[1].lower() in {"pdf"}`.  The text after the last
dot is the last component of the dot-split, and a dot occurs in the name
iff that split has at least two components. -/
def allowed_file (filename : String) : Bool :=
  let parts := splitOnChar '.' filename.data
  decide (2 ≤ parts.length) && (parts.getLastD []).map lowerChar == ['p', 'd', 'f']

/-- `is_pdf_content` from app.py: the first four bytes of the stream must
be the literal signature `%PDF` (bytes 0x25 0x50 0x44 0x46, i.e.
`%`, `P`, `D`, `F`).  A shorter file yields a shorter prefix, which is
not equal to the signature. -/
def is_pdf_content (f : FilePart) : Bool :=
  f.content.take 4 == [37, 80, 68, 70]

/-- Abstraction of werkzeug's `generate_password_hash` (an external
primitive, out of scope per the design): an injective tagging that
produces a string in the recognised `pbkdf2:` format. -/
def generate_password_hash (password : String) : String :=
  "pbkdf2:" ++ password

/-- Abstraction of werkzeug's `check_password_hash`, the inverse check of
`generate_password_hash`. -/
def check_password_hash (stored raw : String) : Bool :=
  stored == "pbkdf2:" ++ raw

/-- `hash_password` from app.py. -/
def hash_password (password : String) : String :=
  generate_password_hash password

/-- `verify_password` from app.py.  Returns (valid?, legacy-upgrade
needed?).  A stored credential starting with `pbkdf2:` or `scrypt:` is a
hash and is checked with `check_password_hash`; anything else is a legacy
plain-text credential compared by direct string equality. -/
def verify_password (raw_password stored_password : String) : Bool × Bool :=
  if startsWithStr stored_password "pbkdf2:" || startsWithStr stored_password "scrypt:" then
    (check_password_hash stored_password raw_password, false)
  else
    (raw_password == stored_password, true)

/-! ## Date-time parsing (`parse_dt` and the deadline formats) -/

/-- A parsed `datetime` value (what `datetime.strptime` returns). -/
structure DateTime where
  year : Nat
  month : Nat
  day : Nat
  hour : Nat
  minute : Nat
  second : Nat
deriving DecidableEq, Repr

/-- Chronological key: a strictly monotone encoding of the field tuple
(each base exceeds the field's maximal value for the in-range datetimes
produced by parsing). -/
def DateTime.key (d : DateTime) : Nat :=
  ((((d.year * 13 + d.month) * 32 + d.day) * 24 + d.hour) * 60 + d.minute) * 60 + d.second

/-- `a` is strictly after `b` (Python's `a > b` on datetimes). -/
def dtAfter (a b : DateTime) : Bool :=
  decide (b.key < a.key)

/-- Decimal value of a digit character, `none` for a non-digit. -/
def digitVal (c : Char) : Option Nat :=
  if c.isDigit then some (c.toNat - 48) else none

/-- Parse a 1–2 digit numeric field the way CPython's `_strptime` regex
alternations do: a two-digit match is taken when its value lies in
`[twoMin, twoMax]`; otherwise a single digit `d1` with `oneMin ≤ d1` is
taken (e.g. `%m` uses `1[0-2]|0[1-9]|[1-9]`: two digits for 01–12, else
one digit 1–9). -/
def parseField (twoMin twoMax oneMin : Nat) : List Char → Option (Nat × List Char)
  | c1 :: c2 :: rest =>
    match digitVal c1, digitVal c2 with
    | some d1, some d2 =>
      let v := d1 * 10 + d2
      if twoMin ≤ v ∧ v ≤ twoMax then some (v, rest)
      else if oneMin ≤ d1 then some (d1, c2 :: rest)
      else none
    | some d1, none => if oneMin ≤ d1 then some (d1, c2 :: rest) else none
    | none, _ => none
  | [c1] =>
    match digitVal c1 with
    | some d1 => if oneMin ≤ d1 then some (d1, []) else none
    | none => none
  | [] => none

/-- Parse exactly four digits (`%Y`). -/
def parseYear4 : List Char → Option (Nat × List Char)
  | c1 :: c2 :: c3 :: c4 :: rest =>
    match digitVal c1, digitVal c2, digitVal c3, digitVal c4 with
    | some d1, some d2, some d3, some d4 =>
      some (((d1 * 10 + d2) * 10 + d3) * 10 + d4, rest)
    | _, _, _, _ => none
  | _ => none

/-- Consume one expected literal character. -/
def expectChar (ch : Char) : List Char → Option (List Char)
  | c :: rest => if c = ch then some rest else none
  | [] => none

/-- Gregorian leap year, as in Python's `calendar`/`datetime`. -/
def isLeapYear (y : Nat) : Bool :=
  y % 4 == 0 && (y % 100 != 0 || y % 400 == 0)

/-- Days in a month, as validated by the `datetime` constructor. -/
def daysInMonth (y m : Nat) : Nat :=
  if m = 2 then (if isLeapYear y then 29 else 28)
  else if m = 4 ∨ m = 6 ∨ m = 9 ∨ m = 11 then 30
  else 31

/-- Parse a string against `%Y-%m-%d{sep}%H:%M` (with `:%S` appended when
`withSec` is true), mirroring `datetime.strptime`: the whole string must
be consumed, and the `datetime` constructor additionally requires
`1 ≤ year` and the day to fit the month. -/
def parseDateTimeFmt (sep : Char) (withSec : Bool) (v : String) : Option DateTime :=
  match parseYear4 v.data with
  | none => none
  | some (y, r1) =>
    match expectChar '-' r1 with
    | none => none
    | some r2 =>
      match parseField 1 12 1 r2 with
      | none => none
      | some (mo, r3) =>
        match expectChar '-' r3 with
        | none => none
        | some r4 =>
          match parseField 1 31 1 r4 with
          | none => none
          | some (d, r5) =>
            match expectChar sep r5 with
            | none => none
            | some r6 =>
              match parseField 0 23 0 r6 with
              | none => none
              | some (h, r7) =>
                match expectChar ':' r7 with
                | none => none
                | some r8 =>
                  match parseField 0 59 0 r8 with
                  | none => none
                  | some (mi, r9) =>
                    let finish : Nat → List Char → Option DateTime := fun sec rest =>
                      if rest = [] ∧ 1 ≤ y ∧ d ≤ daysInMonth y mo then
                        some ⟨y, mo, d, h, mi, sec⟩
                      else none
                    if withSec then
                      match expectChar ':' r9 with
                      | none => none
                      | some r10 =>
                        match parseField 0 59 0 r10 with
                        | none => none
                        | some (sec, r11) => finish sec r11
                    else finish 0 r9

/-- `parse_dt` from app.py: try `"%Y-%m-%d %H:%M:%S"` first, then
`"%Y-%m-%d %H:%M"`; `None` when both fail. -/
def parse_dt (value : String) : Option DateTime :=
  match parseDateTimeFmt ' ' true value with
  | some d => some d
  | none => parseDateTimeFmt ' ' false value

/-- Zero-pad to two digits (`strftime` `%m`/`%d`/`%H`/`%M`). -/
def pad2 (n : Nat) : String :=
  if n < 10 then "0" ++ toString n else toString n

/-- Zero-pad to four digits (`strftime` `%Y`). -/
def pad4 (n : Nat) : String :=
  if n < 10 then "000" ++ toString n
  else if n < 100 then "00" ++ toString n
  else if n < 1000 then "0" ++ toString n
  else toString n

/-- `strftime("%Y-%m-%d %H:%M")`: the canonical minute-precision form in
which assignment deadlines are stored. -/
def formatMinute (d : DateTime) : String :=
  pad4 d.year ++ "-" ++ pad2 d.month ++ "-" ++ pad2 d.day ++ " " ++
    pad2 d.hour ++ ":" ++ pad2 d.minute

/-! ## The request handlers -/

/-- Look up an assignment by the form-supplied id string
(`SELECT * FROM assignments WHERE id = ?`): SQLite integer affinity
converts the text to an integer when possible; a non-numeric string
matches no row. -/
def lookupAssignment (idStr : String) (l : List Assignment) : Option Assignment :=
  match strToNat? idStr with
  | none => none
  | some n => l.find? (fun a => a.id == n)

/-- Look up a submission by the form-supplied id string
(`SELECT * FROM submissions WHERE id = ?`), with the same affinity
conversion. -/
def lookupSubmission (idStr : String) (l : List Submission) : Option Submission :=
  match strToNat? idStr with
  | none => none
  | some n => l.find? (fun x => x.id == n)

/-- The pending-resubmission query of `student_dashboard`:
`SELECT * FROM submissions WHERE student_id = ? AND assignment_id = ?
AND status = 'Pending'` (`fetchone`). -/
def findOldPending (studentId aid : Nat) (subs : List Submission) : Option Submission :=
  subs.find? (fun x =>
    x.student_id == studentId && x.assignment_id == aid && x.status == "Pending")

/-- Abstraction of werkzeug's `secure_filename` (external sanitizer, out
of scope per the design; no claim depends on its behaviour). -/
def secure_filename (filename : String) : String :=
  filename

/-- The stored file name
`f"{student_id}_{assignment_id}_{uuid4().hex}_{safe_name}"`; the random
hex token is the `token` parameter. -/
def finalFileName (studentId : Nat) (assignmentId token filename : String) : String :=
  toString studentId ++ "_" ++ assignmentId ++ "_" ++ token ++ "_" ++
    secure_filename filename

/-- The mutation part of a successful submit: delete the old Pending row
for (student, assignment) and its file if one exists, save the new file,
insert the new row with status `Pending`. -/
def submitCore (studentId : Nat) (a : Assignment) (assignmentId token now fname : String)
    (s : State) : State :=
  let s1 : State :=
    match findOldPending studentId a.id s.submissions with
    | some o =>
      { s with files := s.files.erase o.file_name,
               submissions := s.submissions.filter (fun x => decide (x.id ≠ o.id)) }
    | none => s
  let fn := finalFileName studentId assignmentId token fname
  { s1 with
    files := fn :: s1.files,
    submissions := s1.submissions ++
      [{ id := s1.nextSubmissionId, student_id := studentId, assignment_id := a.id,
         file_name := fn, submitted_at := now, status := "Pending",
         faculty_comment := "", reviewed_at := "", reviewed_by := none }],
    nextSubmissionId := s1.nextSubmissionId + 1 }

/-- `submit(student, assignment_id, file)`: the POST branch of
`student_dashboard`, applied to the extracted form values.  `token`
models `uuid4().hex` and `now` models `now_text()`. -/
def submit (studentId : Nat) (assignmentId : String) (file : Option FilePart)
    (token now : String) (s : State) : Option Err × State :=
  if assignmentId = "" then
    (some (Err.validationErr "Please select an assignment."), s)
  else
    match file with
    | none => (some (Err.validationErr "Please choose a PDF file."), s)
    | some f =>
      if f.filename = "" then
        (some (Err.validationErr "Please choose a PDF file."), s)
      else if ¬ allowed_file f.filename then
        (some (Err.validationErr "Only PDF files are allowed."), s)
      else if ¬ is_pdf_content f then
        (some (Err.validationErr "Invalid file content. Please upload a valid PDF."), s)
      else
        match lookupAssignment assignmentId s.assignments with
        | none => (some (Err.notFoundErr "Assignment not found."), s)
        | some a => (none, submitCore studentId a assignmentId token now f.filename s)

/-- `delete(student, submission_id)`: the `delete_submission` route.  The
row is looked up by id AND owner; a non-Pending row may not be deleted;
otherwise the backing file is removed best-effort (`FileNotFoundError`
ignored, so `List.erase` of an absent name is a no-op) and the row
deleted. -/
def delete_submission (studentId submissionId : Nat) (s : State) : Option Err × State :=
  match s.submissions.find? (fun x => x.id == submissionId && x.student_id == studentId) with
  | none => (some (Err.notFoundErr "Submission not found."), s)
  | some row =>
    if row.status != "Pending" then
      (some (Err.authzErr "You can delete only pending submissions."), s)
    else
      (none,
        { s with files := s.files.erase row.file_name,
                 submissions := s.submissions.filter (fun x => decide (x.id ≠ submissionId)) })

/-- `review(faculty, submission_id, action, comment)`: the `form_type ==
"review"` branch of `faculty_dashboard`, applied to the extracted form
values.  The UPDATE touches every row whose id matches (at most one in a
well-formed state). -/
def review (facultyId : Nat) (submissionId action comment now : String)
    (s : State) : Option Err × State :=
  if ¬ (action = "Approved" ∨ action = "Rejected") then
    (some (Err.validationErr "Invalid action."), s)
  else
    match lookupSubmission submissionId s.submissions with
    | none => (some (Err.notFoundErr "Submission not found."), s)
    | some row =>
      (none,
        { s with submissions := s.submissions.map (fun x =>
            if x.id == row.id then
              { x with status := action, faculty_comment := comment,
                       reviewed_at := now, reviewed_by := some facultyId }
            else x) })

/-- `create(title, description, deadline)`: the `form_type ==
"assignment"` branch of `faculty_dashboard`, applied to the extracted
form values.  The deadline arrives in `datetime-local` format
`%Y-%m-%dT%H:%M` and is stored re-formatted as `%Y-%m-%d %H:%M`; the
UNIQUE constraint on title surfaces as a ConflictError. -/
def create_assignment (title description deadline : String) (s : State) : Option Err × State :=
  if title = "" ∨ description = "" ∨ deadline = "" then
    (some (Err.validationErr "All assignment fields are required."), s)
  else
    match parseDateTimeFmt 'T' false deadline with
    | none => (some (Err.validationErr "Deadline format is invalid."), s)
    | some d =>
      if s.assignments.any (fun a => a.title == title) then
        (some (Err.conflictErr "Assignment title already exists."), s)
      else
        (none,
          { s with
            assignments := s.assignments ++
              [{ id := s.nextAssignmentId, title := title, description := description,
                 deadline := formatMinute d }],
            nextAssignmentId := s.nextAssignmentId + 1 })

/-- The `login` POST handler: normalize the email (strip + lower-case),
look the user up by (email, claimed role), verify the password, upgrade a
legacy plain-text credential on success, and append a login log entry.
Both failure paths flash the same generic message and leave the state
unchanged. -/
def login (emailRaw passwordRaw roleRaw now : String) (s : State) : Option Err × State :=
  let email := toLowerStr (pyStrip emailRaw)
  let password := pyStrip passwordRaw
  let role := pyStrip roleRaw
  match s.users.find? (fun u => u.email == email && u.role == role) with
  | none => (some (Err.authErr "Invalid credentials or wrong role selected."), s)
  | some user =>
    let vr := verify_password password user.password
    if ¬ vr.1 then
      (some (Err.authErr "Invalid credentials or wrong role selected."), s)
    else
      let s1 : State :=
        if vr.2 then
          { s with users := s.users.map (fun u =>
              if u.id == user.id then { u with password := hash_password password } else u) }
        else s
      (none, { s1 with login_logs := s1.login_logs ++ [(user.id, now)] })

/-- The `/uploads/<filename>` download route: authorization decision for
a requester with the given id and session role.  No state change. -/
def download_file (userId : Nat) (role filename : String) (s : State) : Option Err :=
  match s.submissions.find? (fun x => x.file_name == filename) with
  | none => some (Err.notFoundErr "File not found.")
  | some sub =>
    if role == "student" && sub.student_id != userId then
      some (Err.authzErr "You are not allowed to access this file.")
    else
      none

/-- One row of the student dashboard's "My Submissions" table, with the
derived late flag. -/
structure SubmissionView where
  sub : Submission
  title : String
  deadline : String
  late : Bool
deriving DecidableEq, Repr

/-- The late flag computed for a display row:
`bool(dead and sub and sub > dead)` where `dead = parse_dt(deadline)` and
`sub = parse_dt(submitted_at)` (datetime objects are always truthy, so
this is: both parse and submitted-at strictly after deadline). -/
def lateFlag (deadline submitted_at : String) : Bool :=
  match parse_dt deadline, parse_dt submitted_at with
  | some dead, some sub => dtAfter sub dead
  | _, _ => false

/-- `list_for_student`: the student dashboard's submissions query — the
student's rows joined with their assignment (INNER JOIN drops rows whose
assignment is missing), ordered by `submitted_at` DESC, each with the
derived late flag. -/
def list_for_student (studentId : Nat) (s : State) : List SubmissionView :=
  let joined := s.submissions.filterMap (fun x =>
    if x.student_id == studentId then
      match s.assignments.find? (fun a => a.id == x.assignment_id) with
      | some a => some { sub := x, title := a.title, deadline := a.deadline,
                         late := lateFlag a.deadline x.submitted_at }
      | none => none
    else none)
  joined.mergeSort (fun r1 r2 => strLe r2.sub.submitted_at r1.sub.submitted_at)

/-- `SELECT id, title, description, deadline FROM assignments ORDER BY
deadline ASC` (used by both dashboards). -/
def list_assignments (s : State) : List Assignment :=
  s.assignments.mergeSort (fun a b => strLe a.deadline b.deadline)

/-! ## Helper lemmas -/

/-- If the key `f` is duplicate-free on `l`, an element `u` of `l`
satisfying `p`, such that every `p`-satisfying element shares its key, is
what `find?` returns. -/
theorem find?_eq_some_of_nodup_key {α κ : Type} (f : α → κ) (p : α → Bool)
    (l : List α) (u : α) (hnd : (l.map f).Nodup) (hu : u ∈ l) (hp : p u = true)
    (hkey : ∀ x ∈ l, p x = true → f x = f u) :
    l.find? p = some u := by
  induction l with
  | nil => cases hu
  | cons a t ih =>
    rw [List.map_cons, List.nodup_cons] at hnd
    by_cases hpa : p a = true
    · have hfa : f a = f u := hkey a (List.mem_cons_self a t) hpa
      rcases List.mem_cons.mp hu with rfl | hut
      · simp [List.find?_cons, hpa]
      · exact absurd (hfa ▸ List.mem_map.mpr ⟨u, hut, rfl⟩) hnd.1
    · have hut : u ∈ t := by
        rcases List.mem_cons.mp hu with rfl | hut
        · exact absurd hp hpa
        · exact hut
      rw [List.find?_cons_of_neg _ hpa]
      exact ih hnd.2 hut (fun x hx hpx => hkey x (List.mem_cons_of_mem a hx) hpx)

/-- Removing, by key, the one element of a key-duplicate-free list
accounts for exactly that element's contribution to any `countP`. -/
theorem countP_filter_ne_key {α κ : Type} [DecidableEq κ] (f : α → κ) (l : List α)
    (o : α) (p : α → Bool) (hnd : (l.map f).Nodup) (ho : o ∈ l) :
    (l.filter (fun x => decide (f x ≠ f o))).countP p +
      (if p o = true then 1 else 0) = l.countP p := by
  induction l with
  | nil => cases ho
  | cons a t ih =>
    rw [List.map_cons, List.nodup_cons] at hnd
    rcases List.mem_cons.mp ho with rfl | hot
    · have hkeep : ∀ x ∈ t, f x ≠ f o :=
        fun x hx h => hnd.1 (h ▸ List.mem_map.mpr ⟨x, hx, rfl⟩)
      have hfilter : t.filter (fun x => decide (f x ≠ f o)) = t :=
        List.filter_eq_self.mpr (fun x hx => by simpa using hkeep x hx)
      rw [List.filter_cons, if_neg (by simp), hfilter, List.countP_cons]
    · have hao : f a ≠ f o :=
        fun h => hnd.1 (h ▸ List.mem_map.mpr ⟨o, hot, rfl⟩)
      rw [List.filter_cons, if_pos (by simpa using hao)]
      rw [List.countP_cons, List.countP_cons]
      have hih := ih hnd.2 hot
      by_cases hpo : p o = true <;> by_cases hpa : p a = true <;>
        simp [hpo, hpa] at hih ⊢ <;> omega

/-- Equal keys on a key-duplicate-free list force equal elements. -/
theorem eq_of_key_of_nodup {α κ : Type} (f : α → κ) {l : List α}
    (hnd : (l.map f).Nodup) {x y : α} (hx : x ∈ l) (hy : y ∈ l)
    (hxy : f x = f y) : x = y :=
  List.inj_on_of_nodup_map hnd hx hy hxy

/-- The row a successful review writes for `row`. -/
def reviewedRow (facultyId : Nat) (action comment now : String) (row : Submission) : Submission :=
  { row with status := action, faculty_comment := comment,
             reviewed_at := now, reviewed_by := some facultyId }

/-- A small populated state used by the witnesses: one faculty user, one
legacy-credential student, one assignment, one Pending submission. -/
def sampleState : State :=
  { users := [
      { id := 1, name := "Dr. Priya Faculty", email := "faculty@college.edu",
        password := "pbkdf2:faculty123", role := "faculty" },
      { id := 2, name := "Arun Student", email := "arun@student.edu",
        password := "student123", role := "student" }],
    assignments := [
      { id := 1, title := "Data Structures - Week 1",
        description := "Implement stack and queue operations with test cases.",
        deadline := "2026-03-05 23:59" }],
    submissions := [
      { id := 1, student_id := 2, assignment_id := 1,
        file_name := "2_1_aabb_hw.pdf", submitted_at := "2026-03-05 23:59:00",
        status := "Pending", faculty_comment := "", reviewed_at := "",
        reviewed_by := none }],
    login_logs := [], files := ["2_1_aabb_hw.pdf"],
    nextUserId := 3, nextAssignmentId := 2, nextSubmissionId := 2 }

/-- The sample Pending submission of `sampleState`. -/
def samplePending : Submission :=
  { id := 1, student_id := 2, assignment_id := 1,
    file_name := "2_1_aabb_hw.pdf", submitted_at := "2026-03-05 23:59:00",
    status := "Pending", faculty_comment := "", reviewed_at := "",
    reviewed_by := none }

/-! ## Claims -/

/-- C2: `review` rejects an action outside {Approved, Rejected} with a
ValidationError; fails with NotFoundError when the id resolves to no
submission; otherwise succeeds and writes status, comment, reviewer and
review timestamp onto the row with that id (leaving other rows
untouched).  Nothing restricts ownership — the outcome is the same for
every acting faculty id — and no conjunct requires the row to be Pending,
so a review of an already-reviewed row is accepted again and re-applies
the update. -/
theorem review_contract (facultyId : Nat) (submissionId action comment now : String)
    (s : State) :
    (¬ (action = "Approved" ∨ action = "Rejected") →
      review facultyId submissionId action comment now s =
        (some (Err.validationErr "Invalid action."), s)) ∧
    ((action = "Approved" ∨ action = "Rejected") →
      lookupSubmission submissionId s.submissions = none →
      review facultyId submissionId action comment now s =
        (some (Err.notFoundErr "Submission not found."), s)) ∧
    (∀ row, (action = "Approved" ∨ action = "Rejected") →
      lookupSubmission submissionId s.submissions = some row →
      (review facultyId submissionId action comment now s).1 = none ∧
      reviewedRow facultyId action comment now row ∈
        (review facultyId submissionId action comment now s).2.submissions ∧
      (∀ x ∈ s.submissions, x.id ≠ row.id →
        x ∈ (review facultyId submissionId action comment now s).2.submissions)) ∧
    (∀ facultyId2, (review facultyId submissionId action comment now s).1 =
      (review facultyId2 submissionId action comment now s).1) := by
  refine ⟨?_, ?_, ?_, ?_⟩
  · intro hbad
    simp [review, hbad]
  · intro hok hnone
    simp [review, hok, hnone]
  · intro row hok hfind
    have hmem : row ∈ s.submissions := by
      unfold lookupSubmission at hfind
      cases h : strToNat? submissionId with
      | none => rw [h] at hfind; cases hfind
      | some n => rw [h] at hfind; exact List.mem_of_find?_eq_some hfind
    have hsub : (review facultyId submissionId action comment now s).2.submissions =
        s.submissions.map (fun x =>
          if x.id == row.id then reviewedRow facultyId action comment now x else x) := by
      simp [review, hok, hfind, reviewedRow]
    refine ⟨by simp [review, hok, hfind], ?_, ?_⟩
    · rw [hsub]
      exact List.mem_map.mpr ⟨row, hmem, by simp [reviewedRow]⟩
    · intro x hx hne
      rw [hsub]
      exact List.mem_map.mpr ⟨x, hx, by simp [hne]⟩
  · intro facultyId2
    by_cases hok : action = "Approved" ∨ action = "Rejected"
    · cases hfind : lookupSubmission submissionId s.submissions with
      | none => simp [review, hok, hfind]
      | some row => simp [review, hok, hfind]
    · simp [review, hok]

/-- Witness for C2 at concrete inputs: an invalid action is rejected, an
unknown id is not found, and a review by faculty 1 of the sample Pending
submission succeeds. -/
theorem review_contract_witness :
    (review 1 "1" "Maybe" "c" "2026-03-06 10:00:00" sampleState =
      (some (Err.validationErr "Invalid action."), sampleState)) ∧
    (review 1 "99" "Approved" "c" "2026-03-06 10:00:00" sampleState =
      (some (Err.notFoundErr "Submission not found."), sampleState)) ∧
    (review 1 "1" "Rejected" "late work" "2026-03-06 10:00:00" sampleState).1 = none := by
  refine ⟨?_, ?_, ?_⟩
  · exact (review_contract 1 "1" "Maybe" "c" "2026-03-06 10:00:00" sampleState).1
      (by decide)
  · exact (review_contract 1 "99" "Approved" "c" "2026-03-06 10:00:00" sampleState).2.1
      (Or.inl rfl) (by decide)
  · exact ((review_contract 1 "1" "Rejected" "late work" "2026-03-06 10:00:00"
      sampleState).2.2.1 samplePending (Or.inr rfl) (by decide)).1

/-- C8: reviewing a Pending submission with action `Approved` succeeds
and the resulting ledger contains the row updated to status `Approved`,
with the comment stored verbatim (any string, including the empty one),
the reviewer set to the acting faculty and the review timestamp set to
the current time. -/
theorem review_approved_pending (facultyId : Nat) (submissionId comment now : String)
    (s : State) (row : Submission)
    (hfind : lookupSubmission submissionId s.submissions = some row)
    (_hpending : row.status = "Pending") :
    (review facultyId submissionId "Approved" comment now s).1 = none ∧
    { row with status := "Approved", faculty_comment := comment,
               reviewed_at := now, reviewed_by := some facultyId } ∈
      (review facultyId submissionId "Approved" comment now s).2.submissions := by
  have hmem : row ∈ s.submissions := by
    unfold lookupSubmission at hfind
    cases h : strToNat? submissionId with
    | none => rw [h] at hfind; cases hfind
    | some n => rw [h] at hfind; exact List.mem_of_find?_eq_some hfind
  have hok : ("Approved" = "Approved" ∨ ("Approved" : String) = "Rejected") := Or.inl rfl
  have hsub : (review facultyId submissionId "Approved" comment now s).2.submissions =
      s.submissions.map (fun x =>
        if x.id == row.id then
          { x with status := "Approved", faculty_comment := comment,
                   reviewed_at := now, reviewed_by := some facultyId }
        else x) := by
    simp [review, hok, hfind]
  refine ⟨by simp [review, hok, hfind], ?_⟩
  rw [hsub]
  exact List.mem_map.mpr ⟨row, hmem, by simp⟩

/-- Witness for C8: approving the sample Pending submission with the
empty comment succeeds and stores the empty comment, the reviewer id and
the timestamp. -/
theorem review_approved_pending_witness :
    (review 1 "1" "Approved" "" "2026-03-06 10:00:00" sampleState).1 = none ∧
    ({ samplePending with
        status := "Approved", faculty_comment := "",
        reviewed_at := "2026-03-06 10:00:00", reviewed_by := some 1 } : Submission) ∈
      (review 1 "1" "Approved" "" "2026-03-06 10:00:00" sampleState).2.submissions :=
  review_approved_pending 1 "1" "" "2026-03-06 10:00:00" sampleState samplePending
    (by decide) (by decide)

/-- C4: `delete_submission` yields NotFoundError when no row with the
given id is owned by the acting student — in particular when the row
exists but belongs to another student; yields AuthorizationError, with a
message distinct from the not-found one, when the owned row is not
Pending; and otherwise succeeds, deleting the row and its backing file
(the success outcome does not depend on whether the file is present, so
an already-absent file is treated as success). -/
theorem delete_submission_contract (studentId submissionId : Nat) (s : State) :
    ((∀ x ∈ s.submissions, ¬ (x.id = submissionId ∧ x.student_id = studentId)) →
      delete_submission studentId submissionId s =
        (some (Err.notFoundErr "Submission not found."), s)) ∧
    (∀ row, (s.submissions.map (fun x => x.id)).Nodup → row ∈ s.submissions →
      row.id = submissionId → row.student_id ≠ studentId →
      delete_submission studentId submissionId s =
        (some (Err.notFoundErr "Submission not found."), s)) ∧
    (∀ row, (s.submissions.map (fun x => x.id)).Nodup → row ∈ s.submissions →
      row.id = submissionId → row.student_id = studentId → row.status ≠ "Pending" →
      delete_submission studentId submissionId s =
        (some (Err.authzErr "You can delete only pending submissions."), s)) ∧
    (∀ row, (s.submissions.map (fun x => x.id)).Nodup → s.files.Nodup →
      row ∈ s.submissions → row.id = submissionId → row.student_id = studentId →
      row.status = "Pending" →
      (delete_submission studentId submissionId s).1 = none ∧
      (∀ x ∈ (delete_submission studentId submissionId s).2.submissions,
        x.id ≠ submissionId) ∧
      row.file_name ∉ (delete_submission studentId submissionId s).2.files) ∧
    (Err.authzErr "You can delete only pending submissions." ≠
      Err.notFoundErr "Submission not found.") := by
  refine ⟨?_, ?_, ?_, ?_, by decide⟩
  · intro hnone
    have hfind : s.submissions.find?
        (fun x => x.id == submissionId && x.student_id == studentId) = none := by
      rw [List.find?_eq_none]
      intro x hx
      simpa using hnone x hx
    simp [delete_submission, hfind]
  · intro row hnd hmem hid hst
    have hfind : s.submissions.find?
        (fun x => x.id == submissionId && x.student_id == studentId) = none := by
      rw [List.find?_eq_none]
      intro x hx
      simp only [Bool.and_eq_true, beq_iff_eq, not_and]
      intro hxid hxst
      exact hst (by
        have hxr : x = row :=
          eq_of_key_of_nodup (fun y => y.id) hnd hx hmem (by simp [hxid, hid])
        rw [← hxr, hxst])
    simp [delete_submission, hfind]
  · intro row hnd hmem hid hst hstat
    have hfind : s.submissions.find?
        (fun x => x.id == submissionId && x.student_id == studentId) = some row := by
      apply find?_eq_some_of_nodup_key (fun x => x.id) _ _ _ hnd hmem
        (by simp [hid, hst])
      intro x hx hpx
      simp only [Bool.and_eq_true, beq_iff_eq] at hpx
      simp [hpx.1, hid]
    simp [delete_submission, hfind, hstat]
  · intro row hnd hfilesnd hmem hid hst hstat
    have hfind : s.submissions.find?
        (fun x => x.id == submissionId && x.student_id == studentId) = some row := by
      apply find?_eq_some_of_nodup_key (fun x => x.id) _ _ _ hnd hmem
        (by simp [hid, hst])
      intro x hx hpx
      simp only [Bool.and_eq_true, beq_iff_eq] at hpx
      simp [hpx.1, hid]
    refine ⟨by simp [delete_submission, hfind, hstat], ?_, ?_⟩
    · intro x hx
      have : (delete_submission studentId submissionId s).2.submissions =
          s.submissions.filter (fun x => decide (x.id ≠ submissionId)) := by
        simp [delete_submission, hfind, hstat]
      rw [this] at hx
      simpa using (List.mem_filter.mp hx).2
    · have : (delete_submission studentId submissionId s).2.files =
          s.files.erase row.file_name := by
        simp [delete_submission, hfind, hstat]
      rw [this]
      intro habs
      exact ((hfilesnd.mem_erase_iff.mp habs).1) rfl

/-- Witness for C4 at concrete inputs: deleting an unknown id is not
found, student 3 cannot delete student 2's submission, and the owner's
delete of the Pending sample submission succeeds, removing row and
file. -/
theorem delete_submission_contract_witness :
    (delete_submission 2 7 sampleState =
      (some (Err.notFoundErr "Submission not found."), sampleState)) ∧
    (delete_submission 3 1 sampleState =
      (some (Err.notFoundErr "Submission not found."), sampleState)) ∧
    (delete_submission 2 1 sampleState).1 = none ∧
    "2_1_aabb_hw.pdf" ∉ (delete_submission 2 1 sampleState).2.files := by
  refine ⟨?_, ?_, ?_, ?_⟩
  · exact (delete_submission_contract 2 7 sampleState).1 (by decide)
  · exact (delete_submission_contract 3 1 sampleState).2.1 samplePending
      (by decide) (by decide) (by decide) (by decide)
  · exact ((delete_submission_contract 2 1 sampleState).2.2.2.1 samplePending
      (by decide) (by decide) (by decide) (by decide) (by decide) (by decide)).1
  · exact ((delete_submission_contract 2 1 sampleState).2.2.2.1 samplePending
      (by decide) (by decide) (by decide) (by decide) (by decide) (by decide)).2.2

/-- C5: downloading `/uploads/{filename}` is NotFound when no submission
row records that file name; when a row does record it (file names being
unique in a well-formed ledger), a student who does not own it gets
AuthorizationError, the owning student succeeds, and a faculty requester
succeeds for any recorded file name. -/
theorem download_file_contract (userId : Nat) (filename : String) (s : State) :
    (∀ role, (∀ x ∈ s.submissions, x.file_name ≠ filename) →
      download_file userId role filename s = some (Err.notFoundErr "File not found.")) ∧
    (∀ sub, (s.submissions.map (fun x => x.file_name)).Nodup → sub ∈ s.submissions →
      sub.file_name = filename → sub.student_id ≠ userId →
      download_file userId "student" filename s =
        some (Err.authzErr "You are not allowed to access this file.")) ∧
    (∀ sub, (s.submissions.map (fun x => x.file_name)).Nodup → sub ∈ s.submissions →
      sub.file_name = filename → sub.student_id = userId →
      download_file userId "student" filename s = none) ∧
    (∀ sub, sub ∈ s.submissions → sub.file_name = filename →
      download_file userId "faculty" filename s = none) := by
  refine ⟨?_, ?_, ?_, ?_⟩
  · intro role hnone
    have hfind : s.submissions.find? (fun x => x.file_name == filename) = none := by
      rw [List.find?_eq_none]
      intro x hx
      simpa using hnone x hx
    simp [download_file, hfind]
  · intro sub hnd hmem hfn howner
    have hfind : s.submissions.find? (fun x => x.file_name == filename) = some sub := by
      apply find?_eq_some_of_nodup_key (fun x => x.file_name) _ _ _ hnd hmem
        (by simp [hfn])
      intro x hx hpx
      simp only [beq_iff_eq] at hpx
      simp [hpx, hfn]
    simp [download_file, hfind, howner]
  · intro sub hnd hmem hfn howner
    have hfind : s.submissions.find? (fun x => x.file_name == filename) = some sub := by
      apply find?_eq_some_of_nodup_key (fun x => x.file_name) _ _ _ hnd hmem
        (by simp [hfn])
      intro x hx hpx
      simp only [beq_iff_eq] at hpx
      simp [hpx, hfn]
    simp [download_file, hfind, howner]
  · intro sub hmem hfn
    cases hfind : s.submissions.find? (fun x => x.file_name == filename) with
    | none =>
      rw [List.find?_eq_none] at hfind
      exact absurd (by simp [hfn]) (hfind sub hmem)
    | some found => simp [download_file, hfind]

/-- Witness for C5 at concrete inputs: an unrecorded name is not found,
student 3 is refused student 2's file, the owner (student 2) succeeds,
and faculty succeed. -/
theorem download_file_contract_witness :
    download_file 3 "student" "nope.pdf" sampleState =
      some (Err.notFoundErr "File not found.") ∧
    download_file 3 "student" "2_1_aabb_hw.pdf" sampleState =
      some (Err.authzErr "You are not allowed to access this file.") ∧
    download_file 2 "student" "2_1_aabb_hw.pdf" sampleState = none ∧
    download_file 1 "faculty" "2_1_aabb_hw.pdf" sampleState = none := by
  refine ⟨?_, ?_, ?_, ?_⟩
  · exact (download_file_contract 3 "nope.pdf" sampleState).1 "student" (by decide)
  · exact (download_file_contract 3 "2_1_aabb_hw.pdf" sampleState).2.1 samplePending
      (by decide) (by decide) (by decide) (by decide)
  · exact (download_file_contract 2 "2_1_aabb_hw.pdf" sampleState).2.2.1 samplePending
      (by decide) (by decide) (by decide) (by decide)
  · exact (download_file_contract 1 "2_1_aabb_hw.pdf" sampleState).2.2.2 samplePending
      (by decide) (by decide)

/-- C3: `submit` fails with ValidationError when the assignment id is
missing, when the file is missing or has an empty filename, when the
extension is not `.pdf` case-insensitively (`allowed_file`), or when the
leading four bytes are not `%PDF` (`is_pdf_content`); it fails with
NotFoundError when the assignment id resolves to no assignment; and in
every failure case the returned state is the input state — no submission
row is created. -/
theorem submit_validation_contract (studentId : Nat) (assignmentId : String)
    (file : Option FilePart) (token now : String) (s : State) :
    (assignmentId = "" →
      submit studentId assignmentId file token now s =
        (some (Err.validationErr "Please select an assignment."), s)) ∧
    (assignmentId ≠ "" → file = none →
      submit studentId assignmentId file token now s =
        (some (Err.validationErr "Please choose a PDF file."), s)) ∧
    (∀ f, assignmentId ≠ "" → file = some f → f.filename = "" →
      submit studentId assignmentId file token now s =
        (some (Err.validationErr "Please choose a PDF file."), s)) ∧
    (∀ f, assignmentId ≠ "" → file = some f → f.filename ≠ "" →
      allowed_file f.filename = false →
      submit studentId assignmentId file token now s =
        (some (Err.validationErr "Only PDF files are allowed."), s)) ∧
    (∀ f, assignmentId ≠ "" → file = some f → f.filename ≠ "" →
      allowed_file f.filename = true → is_pdf_content f = false →
      submit studentId assignmentId file token now s =
        (some (Err.validationErr "Invalid file content. Please upload a valid PDF."), s)) ∧
    (∀ f, assignmentId ≠ "" → file = some f → f.filename ≠ "" →
      allowed_file f.filename = true → is_pdf_content f = true →
      lookupAssignment assignmentId s.assignments = none →
      submit studentId assignmentId file token now s =
        (some (Err.notFoundErr "Assignment not found."), s)) := by
  refine ⟨?_, ?_, ?_, ?_, ?_, ?_⟩
  · intro h1
    simp [submit, h1]
  · intro h1 h2
    simp [submit, h1, h2]
  · intro f h1 h2 h3
    simp [submit, h1, h2, h3]
  · intro f h1 h2 h3 h4
    simp [submit, h1, h2, h3, h4]
  · intro f h1 h2 h3 h4 h5
    simp [submit, h1, h2, h3, h4, h5]
  · intro f h1 h2 h3 h4 h5 h6
    simp [submit, h1, h2, h3, h4, h5, h6]

/-- Witness for C3 at concrete inputs over `sampleState`: each failure
branch fires with its message and leaves the state unchanged (a file
named `x.pdf` whose content does not begin with `%PDF` is rejected). -/
theorem submit_validation_contract_witness :
    submit 2 "" (some ⟨"x.pdf", [37, 80, 68, 70]⟩) "tok" "2026-03-01 10:00:00" sampleState =
      (some (Err.validationErr "Please select an assignment."), sampleState) ∧
    submit 2 "1" none "tok" "2026-03-01 10:00:00" sampleState =
      (some (Err.validationErr "Please choose a PDF file."), sampleState) ∧
    submit 2 "1" (some ⟨"x.txt", [37, 80, 68, 70]⟩) "tok" "2026-03-01 10:00:00" sampleState =
      (some (Err.validationErr "Only PDF files are allowed."), sampleState) ∧
    submit 2 "1" (some ⟨"x.pdf", [60, 104, 116, 109]⟩) "tok" "2026-03-01 10:00:00" sampleState =
      (some (Err.validationErr "Invalid file content. Please upload a valid PDF."), sampleState) ∧
    submit 2 "9" (some ⟨"x.pdf", [37, 80, 68, 70]⟩) "tok" "2026-03-01 10:00:00" sampleState =
      (some (Err.notFoundErr "Assignment not found."), sampleState) := by
  refine ⟨?_, ?_, ?_, ?_, ?_⟩
  · exact (submit_validation_contract 2 "" (some ⟨"x.pdf", [37, 80, 68, 70]⟩)
      "tok" "2026-03-01 10:00:00" sampleState).1 rfl
  · exact (submit_validation_contract 2 "1" none
      "tok" "2026-03-01 10:00:00" sampleState).2.1 (by decide) rfl
  · exact (submit_validation_contract 2 "1" (some ⟨"x.txt", [37, 80, 68, 70]⟩)
      "tok" "2026-03-01 10:00:00" sampleState).2.2.2.1 ⟨"x.txt", [37, 80, 68, 70]⟩
      (by decide) rfl (by decide) (by decide)
  · exact (submit_validation_contract 2 "1" (some ⟨"x.pdf", [60, 104, 116, 109]⟩)
      "tok" "2026-03-01 10:00:00" sampleState).2.2.2.2.1 ⟨"x.pdf", [60, 104, 116, 109]⟩
      (by decide) rfl (by decide) (by decide) (by decide)
  · exact (submit_validation_contract 2 "9" (some ⟨"x.pdf", [37, 80, 68, 70]⟩)
      "tok" "2026-03-01 10:00:00" sampleState).2.2.2.2.2 ⟨"x.pdf", [37, 80, 68, 70]⟩
      (by decide) rfl (by decide) (by decide) (by decide) (by decide)

/-- C10: whenever `submit` reports an error — any of the validation
failures or an unknown assignment — the returned state is exactly the
input state: the old Pending row (and every other part of the state) is
untouched, because the deletion of a previous Pending submission happens
only on the success path, after every check has passed. -/
theorem submit_error_leaves_state (studentId : Nat) (assignmentId : String)
    (file : Option FilePart) (token now : String) (s : State) (e : Err)
    (herr : (submit studentId assignmentId file token now s).1 = some e) :
    (submit studentId assignmentId file token now s).2 = s := by
  unfold submit at herr ⊢
  by_cases h1 : assignmentId = ""
  · simp [h1]
  · cases file with
    | none => simp [h1]
    | some f =>
      by_cases h2 : f.filename = ""
      · simp [h1, h2]
      · by_cases h3 : allowed_file f.filename
        · by_cases h4 : is_pdf_content f
          · cases ha : lookupAssignment assignmentId s.assignments with
            | none => simp [h1, h2, h3, h4, ha]
            | some a => simp [h1, h2, h3, h4, ha] at herr
          · simp [h1, h2, h3, h4]
        · simp [h1, h2, h3]

/-- Witness for C10: a failing submit (non-PDF content) over the sample
state, which holds a Pending submission for the same pair, leaves the
state — Pending row included — unchanged. -/
theorem submit_error_leaves_state_witness :
    (submit 2 "1" (some ⟨"x.pdf", [60, 104, 116, 109]⟩) "tok"
      "2026-03-01 10:00:00" sampleState).2 = sampleState :=
  submit_error_leaves_state 2 "1" (some ⟨"x.pdf", [60, 104, 116, 109]⟩) "tok"
    "2026-03-01 10:00:00" sampleState
    (Err.validationErr "Invalid file content. Please upload a valid PDF.") (by decide)

/-- C6: `login` keys its user lookup on the pair (normalized email,
claimed role), so presenting a correct password with the wrong claimed
role produces exactly the same generic `Invalid credentials or wrong role
selected.` failure, with the state unchanged, as presenting a wrong
password with the right role — the two outcomes are equal.  When the
stored credential lacks the `pbkdf2:`/`scrypt:` hash prefixes it is in
legacy plain-text form, verification is direct string equality, and any
successful login with such a credential replaces it by
`hash_password` of the presented password. -/
theorem login_contract (emailRaw passwordRaw roleRaw now : String) (s : State) (u : User)
    (hnd : (s.users.map (fun x => x.email)).Nodup)
    (hu : u ∈ s.users)
    (hemail : u.email = toLowerStr (pyStrip emailRaw)) :
    (pyStrip roleRaw ≠ u.role →
      login emailRaw passwordRaw roleRaw now s =
        (some (Err.authErr "Invalid credentials or wrong role selected."), s)) ∧
    (pyStrip roleRaw = u.role →
      (verify_password (pyStrip passwordRaw) u.password).1 = false →
      login emailRaw passwordRaw roleRaw now s =
        (some (Err.authErr "Invalid credentials or wrong role selected."), s)) ∧
    (∀ passwordRaw2 roleRaw2, pyStrip roleRaw2 ≠ u.role →
      pyStrip roleRaw = u.role →
      (verify_password (pyStrip passwordRaw) u.password).1 = false →
      login emailRaw passwordRaw2 roleRaw2 now s =
        login emailRaw passwordRaw roleRaw now s) ∧
    (∀ raw stored, startsWithStr stored "pbkdf2:" = false →
      startsWithStr stored "scrypt:" = false →
      verify_password raw stored = (raw == stored, true)) ∧
    (pyStrip roleRaw = u.role →
      startsWithStr u.password "pbkdf2:" = false →
      startsWithStr u.password "scrypt:" = false →
      u.password = pyStrip passwordRaw →
      (login emailRaw passwordRaw roleRaw now s).1 = none ∧
      (∀ v ∈ (login emailRaw passwordRaw roleRaw now s).2.users,
        v.id = u.id → v.password = hash_password (pyStrip passwordRaw))) := by
  have hlegacy : ∀ raw stored, startsWithStr stored "pbkdf2:" = false →
      startsWithStr stored "scrypt:" = false →
      verify_password raw stored = (raw == stored, true) := by
    intro raw stored h1 h2
    simp [verify_password, h1, h2]
  have hwrongrole : ∀ pw rl, pyStrip rl ≠ u.role →
      login emailRaw pw rl now s =
        (some (Err.authErr "Invalid credentials or wrong role selected."), s) := by
    intro pw rl hrole
    have hfind : s.users.find?
        (fun x => x.email == toLowerStr (pyStrip emailRaw) && x.role == pyStrip rl) = none := by
      rw [List.find?_eq_none]
      intro x hx
      simp only [Bool.and_eq_true, beq_iff_eq, not_and]
      intro hxe hxr
      have hxu : x = u :=
        eq_of_key_of_nodup (fun y => y.email) hnd hx hu (by simp [hxe, hemail])
      exact hrole (by rw [← hxr, hxu])
    simp [login, hfind]
  have hfindu : pyStrip roleRaw = u.role →
      s.users.find?
        (fun x => x.email == toLowerStr (pyStrip emailRaw) && x.role == pyStrip roleRaw) =
        some u := by
    intro hrole
    apply find?_eq_some_of_nodup_key (fun y => y.email) _ _ _ hnd hu
      (by simp [hemail, hrole])
    intro x hx hpx
    simp only [Bool.and_eq_true, beq_iff_eq] at hpx
    simp [hpx.1, hemail]
  refine ⟨fun hrole => hwrongrole passwordRaw roleRaw hrole, ?_, ?_, hlegacy, ?_⟩
  · intro hrole hbad
    simp [login, hfindu hrole, hbad]
  · intro passwordRaw2 roleRaw2 hrole2 hrole hbad
    rw [hwrongrole passwordRaw2 roleRaw2 hrole2]
    rw [(by simp [login, hfindu hrole, hbad] :
      login emailRaw passwordRaw roleRaw now s =
        (some (Err.authErr "Invalid credentials or wrong role selected."), s))]
  · intro hrole hpre1 hpre2 heq
    have hver : verify_password (pyStrip passwordRaw) u.password =
        ((pyStrip passwordRaw == u.password), true) := hlegacy _ _ hpre1 hpre2
    have htrue : (pyStrip passwordRaw == u.password) = true := by
      simp [heq]
    have husers : (login emailRaw passwordRaw roleRaw now s).2.users =
        s.users.map (fun x =>
          if x.id == u.id then { x with password := hash_password (pyStrip passwordRaw) }
          else x) := by
      simp [login, hfindu hrole, hver, htrue]
    refine ⟨by simp [login, hfindu hrole, hver, htrue], ?_⟩
    intro v hv hvid
    rw [husers] at hv
    rcases List.mem_map.mp hv with ⟨x, hx, hxv⟩
    by_cases hxid : x.id = u.id
    · rw [← hxv]
      simp [hxid]
    · exfalso
      rw [← hxv] at hvid
      simp [hxid] at hvid

/-- Witness for C6: with the sample users (student `arun@student.edu`
has the legacy plain-text credential `student123`), claiming the wrong
role fails generically even with the correct password, a wrong password
fails identically, the two outcomes coincide, and a successful legacy
login rehashes the stored credential. -/
theorem login_contract_witness :
    login "arun@student.edu" "student123" "faculty" "2026-03-01 08:00:00" sampleState =
      (some (Err.authErr "Invalid credentials or wrong role selected."), sampleState) ∧
    login "arun@student.edu" "wrongpass" "student" "2026-03-01 08:00:00" sampleState =
      (some (Err.authErr "Invalid credentials or wrong role selected."), sampleState) ∧
    login "arun@student.edu" "student123" "faculty" "2026-03-01 08:00:00" sampleState =
      login "arun@student.edu" "wrongpass" "student" "2026-03-01 08:00:00" sampleState ∧
    (login "arun@student.edu" "student123" "student" "2026-03-01 08:00:00" sampleState).1 =
      none := by
  refine ⟨?_, ?_, ?_, ?_⟩
  · exact (login_contract "arun@student.edu" "student123" "faculty"
      "2026-03-01 08:00:00" sampleState
      { id := 2, name := "Arun Student", email := "arun@student.edu",
        password := "student123", role := "student" }
      (by decide) (by decide) (by decide)).1 (by decide)
  · exact (login_contract "arun@student.edu" "wrongpass" "student"
      "2026-03-01 08:00:00" sampleState
      { id := 2, name := "Arun Student", email := "arun@student.edu",
        password := "student123", role := "student" }
      (by decide) (by decide) (by decide)).2.1 (by decide) (by decide)
  · exact (login_contract "arun@student.edu" "wrongpass" "student"
      "2026-03-01 08:00:00" sampleState
      { id := 2, name := "Arun Student", email := "arun@student.edu",
        password := "student123", role := "student" }
      (by decide) (by decide) (by decide)).2.2.1 "student123" "faculty"
      (by decide) (by decide) (by decide)
  · exact ((login_contract "arun@student.edu" "student123" "student"
      "2026-03-01 08:00:00" sampleState
      { id := 2, name := "Arun Student", email := "arun@student.edu",
        password := "student123", role := "student" }
      (by decide) (by decide) (by decide)).2.2.2.2 (by decide) (by decide)
      (by decide) (by decide)).1

/-- `lateFlag` holds exactly when both timestamps parse and the
submission is strictly after the deadline. -/
theorem lateFlag_iff (dl sa : String) :
    lateFlag dl sa = true ↔ ∃ dead sub, parse_dt dl = some dead ∧
      parse_dt sa = some sub ∧ dtAfter sub dead = true := by
  unfold lateFlag
  cases hd : parse_dt dl <;> cases hs : parse_dt sa <;> simp

/-- `sampleState` with the sample submission turned in one minute past
the deadline. -/
def sampleStateLate : State :=
  { sampleState with submissions := [
      { samplePending with submitted_at := "2026-03-06 00:00:00" }] }

/-- The display row `list_for_student` produces for the late sample
submission. -/
def sampleLateView : SubmissionView :=
  { sub := { samplePending with submitted_at := "2026-03-06 00:00:00" },
    title := "Data Structures - Week 1",
    deadline := "2026-03-05 23:59",
    late := true }

/-- C7: every row displayed by `list_for_student` has its late flag set
iff both the assignment deadline and the submitted-at timestamp parse (in
the formats `%Y-%m-%d %H:%M:%S` / `%Y-%m-%d %H:%M`) and the submitted-at
instant is strictly after the deadline instant; in particular
`2026-03-05 23:59:00` parses to the same instant as the minute-precision
deadline `2026-03-05 23:59` (so it is not late) while one second later is
late. -/
theorem late_flag_contract :
    (∀ studentId s r, r ∈ list_for_student studentId s →
      (r.late = true ↔ ∃ dead sub, parse_dt r.deadline = some dead ∧
        parse_dt r.sub.submitted_at = some sub ∧ dtAfter sub dead = true)) ∧
    parse_dt "2026-03-05 23:59:00" = parse_dt "2026-03-05 23:59" ∧
    lateFlag "2026-03-05 23:59" "2026-03-05 23:59:00" = false ∧
    lateFlag "2026-03-05 23:59" "2026-03-05 23:59:01" = true := by
  refine ⟨?_, by decide, by decide, by decide⟩
  intro studentId s r hr
  unfold list_for_student at hr
  have hr' := ((List.mergeSort_perm _ _).mem_iff).mp hr
  rcases List.mem_filterMap.mp hr' with ⟨x, hx, hfx⟩
  by_cases hst : (x.student_id == studentId) = true
  · rw [if_pos hst] at hfx
    cases hfind : s.assignments.find? (fun a => a.id == x.assignment_id) with
    | none => rw [hfind] at hfx; cases hfx
    | some a =>
      rw [hfind] at hfx
      have : ({ sub := x, title := a.title, deadline := a.deadline,
                late := lateFlag a.deadline x.submitted_at } : SubmissionView) = r := by
        exact Option.some.inj hfx
      rw [← this]
      exact lateFlag_iff a.deadline x.submitted_at
  · rw [if_neg hst] at hfx
    cases hfx

/-- Witness for C7: the sample submission turned in at
`2026-03-06 00:00:00` against deadline `2026-03-05 23:59` appears in the
student's view as late. -/
theorem late_flag_contract_witness : sampleLateView.late = true := by
  have hmem : sampleLateView ∈ list_for_student 2 sampleStateLate := by
    unfold list_for_student
    exact ((List.mergeSort_perm _ _).mem_iff).mpr (by decide)
  exact (late_flag_contract.1 2 sampleStateLate sampleLateView hmem).mpr
    ⟨⟨2026, 3, 5, 23, 59, 0⟩, ⟨2026, 3, 6, 0, 0, 0⟩, by decide, by decide, by decide⟩

/-- `strLeChars` is total. -/
theorem strLeChars_total (l1 l2 : List Char) :
    (strLeChars l1 l2 || strLeChars l2 l1) = true := by
  induction l1 generalizing l2 with
  | nil => simp [strLeChars]
  | cons a t ih =>
    cases l2 with
    | nil => simp [strLeChars]
    | cons b t2 =>
      rcases Nat.lt_trichotomy a.toNat b.toNat with h | h | h
      · simp [strLeChars, h]
      · simp only [strLeChars, h, lt_irrefl, if_neg, if_false]
        simpa [h] using ih t2
      · simp [strLeChars, h, Nat.lt_asymm h]

/-- `strLeChars` is transitive. -/
theorem strLeChars_trans (l1 l2 l3 : List Char) (h12 : strLeChars l1 l2 = true)
    (h23 : strLeChars l2 l3 = true) : strLeChars l1 l3 = true := by
  induction l1 generalizing l2 l3 with
  | nil => simp [strLeChars]
  | cons a t ih =>
    cases l2 with
    | nil => simp [strLeChars] at h12
    | cons b t2 =>
      cases l3 with
      | nil => simp [strLeChars] at h23
      | cons c t3 =>
        simp only [strLeChars] at h12 h23 ⊢
        rcases Nat.lt_trichotomy a.toNat b.toNat with hab | hab | hab <;>
          rcases Nat.lt_trichotomy b.toNat c.toNat with hbc | hbc | hbc
        · simp [Nat.lt_trans hab hbc]
        · simp [hbc ▸ hab]
        · rw [if_neg (by omega), if_pos hbc] at h23; cases h23
        · simp [hab ▸ hbc]
        · rw [if_neg (by omega), if_neg (by omega)] at h12 h23 ⊢
          exact ih t2 t3 h12 h23
        · rw [if_neg (by omega), if_pos hbc] at h23; cases h23
        · rw [if_neg (by omega), if_pos hab] at h12; cases h12
        · rw [if_neg (by omega), if_pos hab] at h12; cases h12
        · rw [if_neg (by omega), if_pos hab] at h12; cases h12

/-- C9: assignment creation rejects blank fields with a ValidationError,
rejects an unparseable deadline (`datetime-local` format `%Y-%m-%dT%H:%M`)
with a ValidationError, rejects a duplicate title with a ConflictError,
and on success stores the deadline normalized to the canonical
minute-precision text `formatMinute`; `list_assignments` returns all
stored assignments (a permutation of the table) ordered by ascending
deadline, and after one successful create it contains exactly one
assignment with the given title. -/
theorem create_assignment_contract (title description deadline : String) (s : State) :
    (title = "" ∨ description = "" ∨ deadline = "" →
      create_assignment title description deadline s =
        (some (Err.validationErr "All assignment fields are required."), s)) ∧
    (title ≠ "" → description ≠ "" → deadline ≠ "" →
      parseDateTimeFmt 'T' false deadline = none →
      create_assignment title description deadline s =
        (some (Err.validationErr "Deadline format is invalid."), s)) ∧
    (∀ d, title ≠ "" → description ≠ "" → deadline ≠ "" →
      parseDateTimeFmt 'T' false deadline = some d →
      (∃ a ∈ s.assignments, a.title = title) →
      create_assignment title description deadline s =
        (some (Err.conflictErr "Assignment title already exists."), s)) ∧
    (∀ d, title ≠ "" → description ≠ "" → deadline ≠ "" →
      parseDateTimeFmt 'T' false deadline = some d →
      (∀ a ∈ s.assignments, a.title ≠ title) →
      (create_assignment title description deadline s).1 = none ∧
      ({ id := s.nextAssignmentId, title := title, description := description,
         deadline := formatMinute d } : Assignment) ∈
        (create_assignment title description deadline s).2.assignments ∧
      (list_assignments
          (create_assignment title description deadline s).2).countP
        (fun a => a.title == title) = 1) ∧
    (∀ st, List.Pairwise (fun a b => strLe a.deadline b.deadline = true)
      (list_assignments st)) ∧
    (∀ st, (list_assignments st).Perm st.assignments) := by
  have hblank : ∀ h1 : title ≠ "", ∀ h2 : description ≠ "", ∀ h3 : deadline ≠ "",
      ¬ (title = "" ∨ description = "" ∨ deadline = "") := by
    intro h1 h2 h3 h
    rcases h with h | h | h
    · exact h1 h
    · exact h2 h
    · exact h3 h
  refine ⟨?_, ?_, ?_, ?_, ?_, ?_⟩
  · intro h
    simp [create_assignment, h]
  · intro h1 h2 h3 hparse
    rw [create_assignment, if_neg (hblank h1 h2 h3), hparse]
  · intro d h1 h2 h3 hparse hdup
    have hany : s.assignments.any (fun a => a.title == title) = true := by
      rcases hdup with ⟨a, ha, hat⟩
      exact List.any_eq_true.mpr ⟨a, ha, by simp [hat]⟩
    rw [create_assignment, if_neg (hblank h1 h2 h3), hparse]
    simp [hany]
  · intro d h1 h2 h3 hparse hfresh
    have hany : s.assignments.any (fun a => a.title == title) = false := by
      rw [← Bool.not_eq_true, List.any_eq_true]
      rintro ⟨a, ha, hat⟩
      exact hfresh a ha (by simpa using hat)
    have hres : create_assignment title description deadline s =
        (none,
          { s with
            assignments := s.assignments ++
              [{ id := s.nextAssignmentId, title := title, description := description,
                 deadline := formatMinute d }],
            nextAssignmentId := s.nextAssignmentId + 1 }) := by
      rw [create_assignment, if_neg (hblank h1 h2 h3), hparse]
      simp [hany]
    refine ⟨by rw [hres], by rw [hres]; simp, ?_⟩
    rw [hres]
    have hperm := List.mergeSort_perm
      (s.assignments ++
        [{ id := s.nextAssignmentId, title := title, description := description,
           deadline := formatMinute d }])
      (fun a b : Assignment => strLe a.deadline b.deadline)
    rw [list_assignments]
    rw [List.Perm.countP_eq _ hperm]
    rw [List.countP_append]
    have hzero : s.assignments.countP (fun a => a.title == title) = 0 := by
      rw [List.countP_eq_zero]
      intro a ha
      simpa using hfresh a ha
    rw [hzero]
    simp
  · intro st
    unfold list_assignments
    exact @List.sorted_mergeSort Assignment
      (fun a b => strLe a.deadline b.deadline)
      (fun a b c hab hbc => strLeChars_trans _ _ _ hab hbc)
      (fun a b => strLeChars_total _ _)
      st.assignments
  · intro st
    exact List.mergeSort_perm st.assignments _

/-- Witness for C9 at concrete inputs over `sampleState`: a blank title
is rejected, a malformed deadline is rejected, a duplicate title
conflicts, and creating a fresh assignment succeeds with its listing
containing it exactly once. -/
theorem create_assignment_contract_witness :
    create_assignment "" "d" "2026-04-01T10:00" sampleState =
      (some (Err.validationErr "All assignment fields are required."), sampleState) ∧
    create_assignment "New HW" "d" "April 1" sampleState =
      (some (Err.validationErr "Deadline format is invalid."), sampleState) ∧
    create_assignment "Data Structures - Week 1" "d" "2026-04-01T10:00" sampleState =
      (some (Err.conflictErr "Assignment title already exists."), sampleState) ∧
    (create_assignment "New HW" "d" "2026-04-01T10:00" sampleState).1 = none ∧
    (list_assignments
        (create_assignment "New HW" "d" "2026-04-01T10:00" sampleState).2).countP
      (fun a => a.title == "New HW") = 1 := by
  refine ⟨?_, ?_, ?_, ?_, ?_⟩
  · exact (create_assignment_contract "" "d" "2026-04-01T10:00" sampleState).1
      (Or.inl rfl)
  · exact (create_assignment_contract "New HW" "d" "April 1" sampleState).2.1
      (by decide) (by decide) (by decide) (by decide)
  · exact (create_assignment_contract "Data Structures - Week 1" "d"
      "2026-04-01T10:00" sampleState).2.2.1 ⟨2026, 4, 1, 10, 0, 0⟩
      (by decide) (by decide) (by decide) (by decide)
      ⟨{ id := 1, title := "Data Structures - Week 1",
         description := "Implement stack and queue operations with test cases.",
         deadline := "2026-03-05 23:59" }, by decide, by decide⟩
  · exact ((create_assignment_contract "New HW" "d" "2026-04-01T10:00"
      sampleState).2.2.2.1 ⟨2026, 4, 1, 10, 0, 0⟩
      (by decide) (by decide) (by decide) (by decide) (by decide)).1
  · exact ((create_assignment_contract "New HW" "d" "2026-04-01T10:00"
      sampleState).2.2.2.1 ⟨2026, 4, 1, 10, 0, 0⟩
      (by decide) (by decide) (by decide) (by decide) (by decide)).2.2

/-- Does submission `x` count as a Pending submission of student `st`
for assignment `aid`?  (The predicate of the resubmission query and of
the at-most-one-Pending invariant.) -/
def pendingPred (st aid : Nat) (x : Submission) : Bool :=
  x.student_id == st && x.assignment_id == aid && x.status == "Pending"

/-- Does submission `x` belong to student `st` and assignment `aid`
(any status)? -/
def pairPred (st aid : Nat) (x : Submission) : Bool :=
  x.student_id == st && x.assignment_id == aid

/-- The fresh row a successful submit inserts. -/
def newPendingSub (studentId : Nat) (a : Assignment) (fn now : String)
    (nextId : Nat) : Submission :=
  { id := nextId, student_id := studentId, assignment_id := a.id, file_name := fn,
    submitted_at := now, status := "Pending", faculty_comment := "",
    reviewed_at := "", reviewed_by := none }

/-- C1: a valid submit succeeds and (i) preserves the at-most-one-Pending
invariant for every (student, assignment) pair, (ii) leaves exactly one
Pending row for the submitted pair; (iii) when an old Pending row existed
for the pair, that row is gone, its backing file was removed from the
upload directory before the new file was stored, and the total row count
for the pair is unchanged; (iv) without an old Pending row the pair's row
count grows by one; and (v) Approved/Rejected rows are never deleted by a
submit. -/
theorem submit_pending_unique (studentId : Nat) (assignmentId : String) (f : FilePart)
    (token now : String) (s : State) (a : Assignment)
    (hids : (s.submissions.map (fun x => x.id)).Nodup)
    (hlt : ∀ x ∈ s.submissions, x.id < s.nextSubmissionId)
    (hinv : ∀ st aid, s.submissions.countP (pendingPred st aid) ≤ 1)
    (haid : assignmentId ≠ "") (hfn : f.filename ≠ "")
    (hext : allowed_file f.filename = true) (hpdf : is_pdf_content f = true)
    (ha : lookupAssignment assignmentId s.assignments = some a) :
    (submit studentId assignmentId (some f) token now s).1 = none ∧
    (∀ st aid,
      (submit studentId assignmentId (some f) token now s).2.submissions.countP
        (pendingPred st aid) ≤ 1) ∧
    (submit studentId assignmentId (some f) token now s).2.submissions.countP
      (pendingPred studentId a.id) = 1 ∧
    (∀ o, findOldPending studentId a.id s.submissions = some o →
      (submit studentId assignmentId (some f) token now s).2.submissions.countP
          (pairPred studentId a.id) =
        s.submissions.countP (pairPred studentId a.id) ∧
      o ∉ (submit studentId assignmentId (some f) token now s).2.submissions ∧
      (submit studentId assignmentId (some f) token now s).2.files =
        finalFileName studentId assignmentId token f.filename ::
          s.files.erase o.file_name) ∧
    (findOldPending studentId a.id s.submissions = none →
      (submit studentId assignmentId (some f) token now s).2.submissions.countP
          (pairPred studentId a.id) =
        s.submissions.countP (pairPred studentId a.id) + 1) ∧
    (∀ x ∈ s.submissions, x.status ≠ "Pending" →
      x ∈ (submit studentId assignmentId (some f) token now s).2.submissions) := by
  have hred : submit studentId assignmentId (some f) token now s =
      (none, submitCore studentId a assignmentId token now f.filename s) := by
    simp [submit, haid, hfn, hext, hpdf, ha]
  rw [hred]
  cases hold : findOldPending studentId a.id s.submissions with
  | some o =>
    have hold' : s.submissions.find? (fun x =>
        x.student_id == studentId && x.assignment_id == a.id &&
          x.status == "Pending") = some o := hold
    have hom : o ∈ s.submissions := List.mem_of_find?_eq_some hold'
    have hpo := List.find?_some hold'
    simp only [Bool.and_eq_true, beq_iff_eq] at hpo
    obtain ⟨⟨ho1, ho2⟩, ho3⟩ := hpo
    have hc : ∀ p : Submission → Bool,
        (s.submissions.filter (fun x => decide (x.id ≠ o.id))).countP p +
          (if p o = true then 1 else 0) = s.submissions.countP p :=
      fun p => countP_filter_ne_key (fun y => y.id) s.submissions o p hids hom
    have hppo : pendingPred studentId a.id o = true := by
      simp [pendingPred, ho1, ho2, ho3]
    have hpairo : pairPred studentId a.id o = true := by
      simp [pairPred, ho1, ho2]
    have hone : s.submissions.countP (pendingPred studentId a.id) = 1 := by
      have h1 := hc (pendingPred studentId a.id)
      rw [if_pos hppo] at h1
      have h2 := hinv studentId a.id
      have h3 : 0 < s.submissions.countP (pendingPred studentId a.id) :=
        List.countP_pos_iff.mpr ⟨o, hom, hppo⟩
      omega
    have hflzero : (s.submissions.filter
        (fun x => decide (x.id ≠ o.id))).countP (pendingPred studentId a.id) = 0 := by
      have h1 := hc (pendingPred studentId a.id)
      rw [if_pos hppo] at h1
      omega
    have hsubs : (submitCore studentId a assignmentId token now f.filename s).submissions =
        s.submissions.filter (fun x => decide (x.id ≠ o.id)) ++
          [newPendingSub studentId a
            (finalFileName studentId assignmentId token f.filename) now
            s.nextSubmissionId] := by
      simp [submitCore, hold, newPendingSub]
    have hfiles : (submitCore studentId a assignmentId token now f.filename s).files =
        finalFileName studentId assignmentId token f.filename ::
          s.files.erase o.file_name := by
      simp [submitCore, hold]
    have hnewpend : pendingPred studentId a.id
        (newPendingSub studentId a
          (finalFileName studentId assignmentId token f.filename) now
          s.nextSubmissionId) = true := by
      simp [pendingPred, newPendingSub]
    have hcount1 : (submitCore studentId a assignmentId token now
        f.filename s).submissions.countP (pendingPred studentId a.id) = 1 := by
      rw [hsubs, List.countP_append, hflzero, List.countP_cons, List.countP_nil,
        if_pos hnewpend]
    refine ⟨rfl, ?_, hcount1, ?_, ?_, ?_⟩
    · intro st aid
      by_cases hpq : pendingPred st aid
          (newPendingSub studentId a
            (finalFileName studentId assignmentId token f.filename) now
            s.nextSubmissionId) = true
      · have hst : st = studentId ∧ aid = a.id := by
          have := hpq
          simp [pendingPred, newPendingSub] at this
          exact ⟨this.1.symm, this.2.symm⟩
        obtain ⟨rfl, rfl⟩ := hst
        rw [hcount1]
      · rw [hsubs, List.countP_append, List.countP_cons, List.countP_nil,
          if_neg hpq]
        have hsle : (s.submissions.filter
            (fun x => decide (x.id ≠ o.id))).countP (pendingPred st aid) ≤
            s.submissions.countP (pendingPred st aid) :=
          List.Sublist.countP_le _ (List.filter_sublist _)
        have := hinv st aid
        omega
    · intro o' ho'
      have hoo : o = o' := by injection ho'
      subst hoo
      refine ⟨?_, ?_, by rw [hfiles]⟩
      · have h1 := hc (pairPred studentId a.id)
        rw [if_pos hpairo] at h1
        have hnp : pairPred studentId a.id
            (newPendingSub studentId a
              (finalFileName studentId assignmentId token f.filename) now
              s.nextSubmissionId) = true := by
          simp [pairPred, newPendingSub]
        rw [hsubs, List.countP_append, List.countP_cons, List.countP_nil,
          if_pos hnp]
        omega
      · rw [hsubs]
        intro hmem
        rcases List.mem_append.mp hmem with hfl | hnew
        · have := (List.mem_filter.mp hfl).2
          simp at this
        · have hoe : o = newPendingSub studentId a
              (finalFileName studentId assignmentId token f.filename) now
              s.nextSubmissionId := by simpa using hnew
          have : o.id = s.nextSubmissionId := by rw [hoe]; rfl
          have := hlt o hom
          omega
    · intro hnone
      simp at hnone
    · intro x hx hxs
      rw [hsubs]
      apply List.mem_append_left
      apply List.mem_filter.mpr
      refine ⟨hx, ?_⟩
      simp only [decide_eq_true_eq]
      intro hxid
      have hxo : x = o := eq_of_key_of_nodup (fun y => y.id) hids hx hom (by simp [hxid])
      rw [hxo] at hxs
      exact hxs ho3
  | none =>
    have hold' : s.submissions.find? (fun x =>
        x.student_id == studentId && x.assignment_id == a.id &&
          x.status == "Pending") = none := hold
    rw [List.find?_eq_none] at hold'
    have hzero : s.submissions.countP (pendingPred studentId a.id) = 0 := by
      rw [List.countP_eq_zero]
      intro x hx
      exact hold' x hx
    have hsubs : (submitCore studentId a assignmentId token now f.filename s).submissions =
        s.submissions ++
          [newPendingSub studentId a
            (finalFileName studentId assignmentId token f.filename) now
            s.nextSubmissionId] := by
      simp [submitCore, hold, newPendingSub]
    have hnewpend : pendingPred studentId a.id
        (newPendingSub studentId a
          (finalFileName studentId assignmentId token f.filename) now
          s.nextSubmissionId) = true := by
      simp [pendingPred, newPendingSub]
    have hcount1 : (submitCore studentId a assignmentId token now
        f.filename s).submissions.countP (pendingPred studentId a.id) = 1 := by
      rw [hsubs, List.countP_append, hzero, List.countP_cons, List.countP_nil,
        if_pos hnewpend]
    refine ⟨rfl, ?_, hcount1, ?_, ?_, ?_⟩
    · intro st aid
      by_cases hpq : pendingPred st aid
          (newPendingSub studentId a
            (finalFileName studentId assignmentId token f.filename) now
            s.nextSubmissionId) = true
      · have hst : st = studentId ∧ aid = a.id := by
          have := hpq
          simp [pendingPred, newPendingSub] at this
          exact ⟨this.1.symm, this.2.symm⟩
        obtain ⟨rfl, rfl⟩ := hst
        rw [hcount1]
      · rw [hsubs, List.countP_append, List.countP_cons, List.countP_nil,
          if_neg hpq]
        have := hinv st aid
        omega
    · intro o' ho'
      simp at ho'
    · intro _
      have hnp : pairPred studentId a.id
          (newPendingSub studentId a
            (finalFileName studentId assignmentId token f.filename) now
            s.nextSubmissionId) = true := by
        simp [pairPred, newPendingSub]
      rw [hsubs, List.countP_append, List.countP_cons, List.countP_nil, if_pos hnp]
    · intro x hx hxs
      rw [hsubs]
      exact List.mem_append_left _ hx

/-- Witness for C1: submitting a fresh valid PDF for assignment 1 while
the sample Pending submission for (student 2, assignment 1) exists
succeeds, and the resulting ledger again has exactly one Pending row for
the pair. -/
theorem submit_pending_unique_witness :
    (submit 2 "1" (some ⟨"a.pdf", [37, 80, 68, 70]⟩) "tok"
      "2026-03-02 09:00:00" sampleState).1 = none ∧
    (submit 2 "1" (some ⟨"a.pdf", [37, 80, 68, 70]⟩) "tok"
      "2026-03-02 09:00:00" sampleState).2.submissions.countP
      (pendingPred 2 1) = 1 := by
  have h := submit_pending_unique 2 "1" ⟨"a.pdf", [37, 80, 68, 70]⟩ "tok"
    "2026-03-02 09:00:00" sampleState
    { id := 1, title := "Data Structures - Week 1",
      description := "Implement stack and queue operations with test cases.",
      deadline := "2026-03-05 23:59" }
    (by decide) (by decide)
    (fun st aid => le_trans (List.countP_le_length _) (by decide))
    (by decide) (by decide) (by decide) (by decide) (by decide)
  exact ⟨h.1, h.2.2.1⟩
